import Mathlib

/-!
Billes/logger: a verification development

Shallow embedding of `logger.go` (package `logger`) and theorems about it.

Modelling conventions

* The package-level variable `logr *logger` is the field `World.logr`;
  the nil pointer is `none`.
* Standard output, standard error and the HTTP requests handed to the
  transport are recorded, in order, in the `World`.
* `go log(e)` appends `e` to `World.goroutines`; `drain` runs the pending
  goroutines one after the other.
* A Go call ends in one of three ways, recorded by `Outcome`: it returns,
  it panics (nil pointer dereference), or the process exits (`os.Exit`).
* The clock (`time.Now().Format(format)`) and the transport
  (`client.Do`) are oracles gathered in `Env`.
* `interface{}` payloads are the values of `Value`, a fragment of Go's
  dynamic values; `json.Marshal` and the `%v` verb of `fmt` are modelled on
  that fragment after their documented behaviour.
-/

namespace Logger

/-! ## Data model -/

/-- Go values that can sit in an `interface{}`: the untyped nil, booleans,
integers, strings, `[]interface{}` slices (nil or not), and two kinds that
`encoding/json` cannot encode, channels and functions (each with its
address, 0 for the nil one, which is what `%v` prints). -/
inductive Value where
  | nil
  | bool (b : Bool)
  | int (i : Int)
  | str (s : String)
  | nilSlice
  | slice (xs : List Value)
  | chan (addr : Nat)
  | func (addr : Nat)

/-- JSON documents, the result of `json.Marshal` before it is laid out as
bytes. -/
inductive Json where
  | null
  | bool (b : Bool)
  | num (i : Int)
  | str (s : String)
  | arr (xs : List Json)
  | obj (fields : List (String × Json))

/-- Source: `type severity string`. -/
abbrev severity := String

def CRITICAL : severity := "CRITICAL"
def DEBUG : severity := "DEBUG"
def ERROR : severity := "ERROR"
def INFO : severity := "INFO"
def WARNING : severity := "WARNING"

/-- Source: `type logEntry struct`. -/
structure logEntry where
  Severity : severity
  Tags : List String
  Message : String
  Data : Value

/-- Source: `type Options struct`. -/
structure Options where
  Host : String
  System : String
  Token : String

/-- Source: `type logger struct`. -/
structure logger where
  options : Options

/-- The request built by `postLog`: URI, method, content type, the
`billes-log-token` header and the body. -/
structure Request where
  uri : String
  method : String
  contentType : String
  headers : List (String × String)
  body : Json

/-- Process state observed by the package. -/
structure World where
  logr : Option logger
  stdout : List String
  stderr : List String
  requests : List Request
  goroutines : List logEntry

/-- The environment: `now k` is the formatted local time read by the
`k`-th console write, `Do k req` the error returned by `client.Do` for the
`k`-th request (`none` is the nil error). -/
structure Env where
  now : Nat → String
  Do : Nat → Request → Option String

/-- How a call ends. -/
inductive Outcome (α : Type) where
  | returned (a : α) (w : World)
  | panicked (w : World)
  | exited (code : Nat) (w : World)

/-- The world a call leaves behind. -/
def Outcome.world {α : Type} : Outcome α → World
  | .returned _ w => w
  | .panicked w => w
  | .exited _ w => w

/-- Sequencing: the second call runs only if the first one returned. -/
def Outcome.andThen {α β : Type} (o : Outcome α) (f : World → Outcome β) : Outcome β :=
  match o with
  | .returned _ w => f w
  | .panicked w => .panicked w
  | .exited c w => .exited c w

/-! ## `encoding/json` and `fmt` on the fragment -/

mutual
/-- Go: `json.Marshal` on a payload: channels and functions are rejected
(`UnsupportedTypeError`), a nil slice is `null`. -/
def marshalValue : Value → Option Json
  | .nil => some .null
  | .bool b => some (.bool b)
  | .int i => some (.num i)
  | .str s => some (.str s)
  | .nilSlice => some .null
  | .slice xs =>
    match marshalValues xs with
    | none => none
    | some js => some (.arr js)
  | .chan _ => none
  | .func _ => none
/-- Elementwise `marshalValue`, failing as soon as one element fails. -/
def marshalValues : List Value → Option (List Json)
  | [] => some []
  | x :: xs =>
    match marshalValue x with
    | none => none
    | some j =>
      match marshalValues xs with
      | none => none
      | some js => some (j :: js)
end

/-- Go: `json.Marshal(e)` for a `logEntry`, following the struct tags. -/
def jsonMarshal (e : logEntry) : Option Json :=
  match marshalValue e.Data with
  | none => none
  | some d =>
    some (.obj [("severity", .str e.Severity), ("tags", .arr (e.Tags.map .str)),
      ("message", .str e.Message), ("data", d)])

/-- The field `"data"` of a marshalled entry. -/
def Json.dataField : Json → Option Json
  | .obj fields => (fields.find? (fun p => p.1 == "data")).map (fun p => p.2)
  | _ => none

/-- Go: `%v` on a `[]string`. -/
def fmtStrings (xs : List String) : String :=
  "[" ++ " ".intercalate xs ++ "]"

/-- Go: `%v` on a channel or a function with the given address: `<nil>` for
the nil one, the address in hexadecimal otherwise. -/
def fmtAddr (addr : Nat) : String :=
  if addr = 0 then "<nil>" else "0x" ++ String.mk (Nat.toDigits 16 addr)

mutual
/-- Go: `%v` on a payload. -/
def fmtValue : Value → String
  | .nil => "<nil>"
  | .bool b => if b then "true" else "false"
  | .int i => toString i
  | .str s => s
  | .nilSlice => "[]"
  | .slice xs => "[" ++ " ".intercalate (fmtValues xs) ++ "]"
  | .chan addr => fmtAddr addr
  | .func addr => fmtAddr addr
/-- Elementwise `fmtValue`. -/
def fmtValues : List Value → List String
  | [] => []
  | x :: xs => fmtValue x :: fmtValues xs
end

/-! ## The package -/

/-- Go: `fmt.Sprintf("%v %v - %v - %v\n", ts, e.Severity, e.Tags, e.Message)`. -/
def formatPlain (ts : String) (e : logEntry) : String :=
  ts ++ " " ++ e.Severity ++ " - " ++ fmtStrings e.Tags ++ " - " ++ e.Message ++ "\n"

/-- Go: `fmt.Sprintf("%v %v - %v - %v\n %v\n", ts, e.Severity, e.Tags, e.Message, e.Data)`. -/
def formatVerbose (ts : String) (e : logEntry) : String :=
  ts ++ " " ++ e.Severity ++ " - " ++ fmtStrings e.Tags ++ " - " ++ e.Message ++ "\n "
    ++ fmtValue e.Data ++ "\n"

/-- Source: `func writeLocalLog(e logEntry, verbose bool)`. -/
def writeLocalLog (env : Env) (e : logEntry) (verbose : Bool) (w : World) : World :=
  let ts := env.now w.stdout.length
  if verbose then
    { w with stdout := w.stdout ++ [formatVerbose ts e] }
  else
    { w with stdout := w.stdout ++ [formatPlain ts e] }

/-- Source: `func postLog(body []byte) error`. -/
def postLog (env : Env) (body : Json) (w : World) : Outcome (Option String) :=
  match w.logr with
  | none => .panicked w
  | some l =>
    if l.options.Host = "" then
      .returned (some "Host is not set") w
    else
      let req : Request :=
        ⟨l.options.Host, "POST", "application/json",
          [("billes-log-token", l.options.Token)], body⟩
      .returned (env.Do w.requests.length req) { w with requests := w.requests ++ [req] }

/-- Source: `func newEntry(severity severity, tags []string, message string, data interface{}) logEntry`;
`none` is the panic of `logr.options.System` on a nil `logr`. -/
def newEntry (logr : Option logger) (sev : severity) (tags : List String) (message : String)
    (data : Value) : Option logEntry :=
  match logr with
  | none => none
  | some l => some ⟨sev, [l.options.System] ++ tags, message, data⟩

/-- How a caller supplies the variadic parameter `data ...interface{}`:
as individual arguments `f(tags, m, d1, ..., dn)` (possibly none), or by
spreading a slice of its own, `f(tags, m, xs...)`, which may be nil (`none`)
or empty. -/
inductive Payload where
  | args (ds : List Value)
  | spread (xs : Option (List Value))

/-- The slice the variadic parameter `data ...interface{}` is bound to: nil
when no argument is passed, a fresh slice of the arguments when some are, and
the caller's own slice, unchanged, when it is spread. -/
def variadic : Payload → Value
  | .args [] => .nilSlice
  | .args (d :: ds) => .slice (d :: ds)
  | .spread none => .nilSlice
  | .spread (some xs) => .slice xs

/-- The statement `go log(e)`: a new goroutine that will run `log(e)`. -/
def goLog (e : logEntry) (w : World) : World :=
  { w with goroutines := w.goroutines ++ [e] }

/-- The body shared by `Critical`, `Debug`, `Error`, `Info` and `Warning`:
`go log(newEntry(sev, tags, message, data))`, the argument being evaluated by
the caller. -/
def goLogNewEntry (sev : severity) (tags : List String) (message : String)
    (data : Payload) (w : World) : Outcome Unit :=
  match newEntry w.logr sev tags message (variadic data) with
  | none => .panicked w
  | some e => .returned () (goLog e w)

/-- Source: `func Critical(tags []string, message string, data ...interface{})`. -/
def Critical (tags : List String) (message : String) (data : Payload) (w : World) :
    Outcome Unit :=
  goLogNewEntry CRITICAL tags message data w

/-- Source: `func Debug(tags []string, message string, data ...interface{})`. -/
def Debug (tags : List String) (message : String) (data : Payload) (w : World) :
    Outcome Unit :=
  goLogNewEntry DEBUG tags message data w

/-- Source: `func Error(tags []string, message string, data ...interface{})`. -/
def Error (tags : List String) (message : String) (data : Payload) (w : World) :
    Outcome Unit :=
  goLogNewEntry ERROR tags message data w

/-- Source: `func Info(tags []string, message string, data ...interface{})`. -/
def Info (tags : List String) (message : String) (data : Payload) (w : World) :
    Outcome Unit :=
  goLogNewEntry INFO tags message data w

/-- Source: `func Warning(tags []string, message string, data ...interface{})`. -/
def Warning (tags : List String) (message : String) (data : Payload) (w : World) :
    Outcome Unit :=
  goLogNewEntry WARNING tags message data w

/-- The message of the entry `log` emits when `json.Marshal` fails. -/
def notEncodable : String :=
  "Could not post to log due to \"data\" wasn't encodable - See local log"

/-- The message of the entry `Init` emits on a second call. -/
def alreadyInstantiated : String :=
  "Trying to instantiate an already instantiated logger"

/-- Source: `func log(e logEntry) error`; the returned error is `none` for nil.
`coreLog.Fatal` prints its message on standard error (after the date and time
prefix of the standard logger, left out here) and exits with status 1. -/
def log (env : Env) (e : logEntry) (w : World) : Outcome (Option String) :=
  match w.logr with
  | none =>
    .exited 1 { w with stderr := w.stderr ++ ["You need to instantiate the logger first"] }
  | some l =>
    match jsonMarshal e with
    | none =>
      (Error ["logging"] notEncodable (.args [.str ""]) (writeLocalLog env e true w)).andThen
        (fun w1 => .returned none w1)
    | some body =>
      if l.options.Host = "" then
        .returned none (writeLocalLog env e false w)
      else
        match postLog env body w with
        | .returned err w1 =>
          if err.isSome then .returned none (writeLocalLog env e true w1)
          else .returned none w1
        | .panicked w1 => .panicked w1
        | .exited c w1 => .exited c w1

/-- Source: `func Fatal(tags []string, message string, data ...interface{})`. -/
def Fatal (env : Env) (tags : List String) (message : String) (data : Payload)
    (w : World) : Outcome Unit :=
  match newEntry w.logr CRITICAL tags message (variadic data) with
  | none => .panicked w
  | some e =>
    match log env e w with
    | .returned err w1 =>
      .exited 1 (if err.isNone then writeLocalLog env e true w1 else w1)
    | .panicked w1 => .panicked w1
    | .exited c w1 => .exited c w1

/-- Source: `func Init(o Options)`. -/
def Init (o : Options) (w : World) : Outcome Unit :=
  match w.logr with
  | some _ => Error ["logging"] alreadyInstantiated (.args [.nil]) w
  | none => .returned () { w with logr := some ⟨o⟩ }

/-! ## Calls and goroutines -/

/-- The six logging calls of the package. -/
inductive Call where
  | Critical
  | Debug
  | Error
  | Info
  | Warning
  | Fatal
  deriving DecidableEq

/-- The severity a call gives its entry. -/
def Call.severity : Call → severity
  | .Critical => CRITICAL
  | .Debug => DEBUG
  | .Error => ERROR
  | .Info => INFO
  | .Warning => WARNING
  | .Fatal => CRITICAL

/-- Invoke a logging call. -/
def Call.invoke (env : Env) (c : Call) (tags : List String) (message : String)
    (data : Payload) (w : World) : Outcome Unit :=
  match c with
  | .Critical => Logger.Critical tags message data w
  | .Debug => Logger.Debug tags message data w
  | .Error => Logger.Error tags message data w
  | .Info => Logger.Info tags message data w
  | .Warning => Logger.Warning tags message data w
  | .Fatal => Logger.Fatal env tags message data w

/-- Run the pending goroutines in the order they were started, at most
`fuel` of them; `none` when goroutines are still pending after `fuel` runs.
A goroutine that exits or panics ends the process. -/
def drain (env : Env) : Nat → World → Option (Outcome Unit)
  | 0, w =>
    match w.goroutines with
    | [] => some (.returned () w)
    | _ :: _ => none
  | fuel + 1, w =>
    match w.goroutines with
    | [] => some (.returned () w)
    | e :: rest =>
      match log env e { w with goroutines := rest } with
      | .returned _ w1 => drain env fuel w1
      | .panicked w1 => some (.panicked w1)
      | .exited c w1 => some (.exited c w1)

/-- Invoke a logging call and, if it returns, let the goroutines run. -/
def Call.perform (env : Env) (fuel : Nat) (c : Call) (tags : List String) (message : String)
    (data : Payload) (w : World) : Option (Outcome Unit) :=
  match c.invoke env tags message data w with
  | .returned _ w1 => drain env fuel w1
  | .panicked w1 => some (.panicked w1)
  | .exited code w1 => some (.exited code w1)

/-- The entry a logging call builds under configuration `o`. -/
def entryOf (o : Options) (c : Call) (tags : List String) (message : String)
    (data : Payload) : logEntry :=
  ⟨c.severity, o.System :: tags, message, variadic data⟩

/-- The entry `log` emits when `json.Marshal` fails. -/
def encodingFailureEntry (o : Options) : logEntry :=
  ⟨ERROR, [o.System, "logging"], notEncodable, .slice [.str ""]⟩

/-- Number of `log` runs an entry leads to: its own, and one more for the
entry emitted when it cannot be encoded. -/
def logRuns (e : logEntry) : Nat :=
  if (jsonMarshal e).isSome then 1 else 2

/-- Number of `log` runs the pending goroutines lead to. -/
def pendingRuns : List logEntry → Nat
  | [] => 0
  | e :: es => logRuns e + pendingRuns es

/-! ## Sample inputs -/

/-- A transport that always succeeds, with a fixed clock. -/
def envOk : Env := ⟨fun _ => "2024-01-01 00:00:00", fun _ _ => none⟩

/-- A transport that always fails, with a fixed clock. -/
def envDown : Env := ⟨fun _ => "2024-01-01 00:00:00", fun _ _ => some "connection refused"⟩

/-- Console-only configuration. -/
def optsLocal : Options := ⟨"", "system", "secret"⟩

/-- Configuration with a remote collector. -/
def optsRemote : Options := ⟨"http://collector/log", "system", "secret"⟩

/-- A fresh process, before `Init`. -/
def worldFresh : World := ⟨none, [], [], [], []⟩

/-- A process initialised without a host. -/
def worldLocal : World := ⟨some ⟨optsLocal⟩, [], [], [], []⟩

/-- A process initialised with a host. -/
def worldRemote : World := ⟨some ⟨optsRemote⟩, [], [], [], []⟩

/-! ## Lemmas on `log` and on the goroutines -/

theorem marshal_encodingFailureEntry (o : Options) :
    jsonMarshal (encodingFailureEntry o) =
      some (.obj [("severity", .str ERROR), ("tags", .arr [.str o.System, .str "logging"]),
        ("message", .str notEncodable), ("data", .arr [.str ""])]) := by
  simp [jsonMarshal, encodingFailureEntry, marshalValue, marshalValues]

theorem log_unencodable (env : Env) (e : logEntry) (o : Options) (w : World)
    (hlogr : w.logr = some ⟨o⟩) (hfail : jsonMarshal e = none) :
    log env e w = .returned none (goLog (encodingFailureEntry o) (writeLocalLog env e true w)) := by
  have h1 : (writeLocalLog env e true w).logr = some ⟨o⟩ := by
    simp [writeLocalLog, hlogr]
  simp [log, hlogr, hfail, Error, goLogNewEntry, newEntry, h1, Outcome.andThen, variadic,
    encodingFailureEntry]

theorem log_hostless (env : Env) (e : logEntry) (o : Options) (w : World) (body : Json)
    (hlogr : w.logr = some ⟨o⟩) (hbody : jsonMarshal e = some body) (hhost : o.Host = "") :
    log env e w = .returned none (writeLocalLog env e false w) := by
  simp [log, hlogr, hbody, hhost]

theorem log_delivered (env : Env) (e : logEntry) (o : Options) (w : World) (body : Json)
    (hlogr : w.logr = some ⟨o⟩) (hbody : jsonMarshal e = some body) (hhost : o.Host ≠ "")
    (hdo : env.Do w.requests.length
      ⟨o.Host, "POST", "application/json", [("billes-log-token", o.Token)], body⟩ = none) :
    log env e w = .returned none { w with requests := w.requests ++
      [⟨o.Host, "POST", "application/json", [("billes-log-token", o.Token)], body⟩] } := by
  simp [log, hlogr, hbody, hhost, postLog, hdo]

theorem log_undelivered (env : Env) (e : logEntry) (o : Options) (w : World) (body : Json)
    (err : String)
    (hlogr : w.logr = some ⟨o⟩) (hbody : jsonMarshal e = some body) (hhost : o.Host ≠ "")
    (hdo : env.Do w.requests.length
      ⟨o.Host, "POST", "application/json", [("billes-log-token", o.Token)], body⟩ = some err) :
    log env e w = .returned none (writeLocalLog env e true { w with requests := w.requests ++
      [⟨o.Host, "POST", "application/json", [("billes-log-token", o.Token)], body⟩] }) := by
  simp [log, hlogr, hbody, hhost, postLog, hdo]

/-- On an initialised logger `log` always returns, with the nil error, and
leaves `logr` alone. -/
theorem log_returns (env : Env) (e : logEntry) (o : Options) (w : World)
    (hlogr : w.logr = some ⟨o⟩) :
    log env e w = .returned none (log env e w).world ∧ (log env e w).world.logr = some ⟨o⟩ := by
  cases hm : jsonMarshal e with
  | none =>
    rw [log_unencodable env e o w hlogr hm]
    simp [Outcome.world, goLog, writeLocalLog, hlogr]
  | some body =>
    by_cases hhost : o.Host = ""
    · rw [log_hostless env e o w body hlogr hm hhost]
      simp [Outcome.world, writeLocalLog, hlogr]
    · cases hdo : env.Do w.requests.length
          ⟨o.Host, "POST", "application/json", [("billes-log-token", o.Token)], body⟩ with
      | none =>
        rw [log_delivered env e o w body hlogr hm hhost hdo]
        simp [Outcome.world, hlogr]
      | some err =>
        rw [log_undelivered env e o w body err hlogr hm hhost hdo]
        simp [Outcome.world, writeLocalLog, hlogr]

theorem drain_idle (env : Env) (fuel : Nat) (w : World) (hidle : w.goroutines = []) :
    drain env fuel w = some (.returned () w) := by
  cases fuel <;> simp [drain, hidle]

theorem pendingRuns_append (es fs : List logEntry) :
    pendingRuns (es ++ fs) = pendingRuns es + pendingRuns fs := by
  induction es with
  | nil => simp [pendingRuns]
  | cons e es ih => simp [pendingRuns, ih, Nat.add_assoc]

theorem logRuns_encodingFailureEntry (o : Options) : logRuns (encodingFailureEntry o) = 1 := by
  simp [logRuns, marshal_encodingFailureEntry]

/-- With enough fuel the pending goroutines all run to completion; without a
host none of them issues a request. -/
theorem drain_completes (env : Env) (o : Options) :
    ∀ (fuel : Nat) (w : World), w.logr = some ⟨o⟩ → pendingRuns w.goroutines ≤ fuel →
      ∃ w', drain env fuel w = some (.returned () w') ∧ w'.goroutines = [] ∧
        w'.logr = some ⟨o⟩ ∧ (o.Host = "" → w'.requests = w.requests) := by
  intro fuel
  induction fuel with
  | zero =>
    intro w hlogr hfuel
    cases hg : w.goroutines with
    | nil => exact ⟨w, by simp [drain, hg], hg, hlogr, fun _ => rfl⟩
    | cons e rest =>
      rw [hg] at hfuel
      have : 0 < logRuns e := by unfold logRuns; split <;> decide
      simp [pendingRuns] at hfuel
      omega
  | succ n ih =>
    intro w hlogr hfuel
    cases hg : w.goroutines with
    | nil => exact ⟨w, by simp [drain, hg], hg, hlogr, fun _ => rfl⟩
    | cons e rest =>
      rw [hg] at hfuel
      have hlogr0 : ({ w with goroutines := rest } : World).logr = some ⟨o⟩ := hlogr
      cases hm : jsonMarshal e with
      | none =>
        have hcost : logRuns e = 2 := by simp [logRuns, hm]
        have hlog := log_unencodable env e o { w with goroutines := rest } hlogr0 hm
        have hnext : pendingRuns (goLog (encodingFailureEntry o)
            (writeLocalLog env e true { w with goroutines := rest })).goroutines ≤ n := by
          simp [goLog, writeLocalLog, pendingRuns_append, pendingRuns,
            logRuns_encodingFailureEntry]
          simp [pendingRuns, hcost] at hfuel
          omega
        obtain ⟨w', hd, hq, hl, hr⟩ := ih _ (by simp [goLog, writeLocalLog, hlogr]) hnext
        refine ⟨w', ?_, hq, hl, ?_⟩
        · simp [drain, hg, hlog, hd]
        · intro hh
          rw [hr hh]
          simp [goLog, writeLocalLog]
      | some body =>
        have hcost : logRuns e = 1 := by simp [logRuns, hm]
        have hrest : pendingRuns rest ≤ n := by
          simp [pendingRuns, hcost] at hfuel
          omega
        by_cases hhost : o.Host = ""
        · have hlog := log_hostless env e o { w with goroutines := rest } body hlogr0 hm hhost
          obtain ⟨w', hd, hq, hl, hr⟩ := ih (writeLocalLog env e false { w with goroutines := rest })
            (by simp [writeLocalLog, hlogr]) (by simpa [writeLocalLog] using hrest)
          refine ⟨w', ?_, hq, hl, ?_⟩
          · simp [drain, hg, hlog, hd]
          · intro hh
            rw [hr hh]
            simp [writeLocalLog]
        · cases hdo : env.Do w.requests.length
              ⟨o.Host, "POST", "application/json", [("billes-log-token", o.Token)], body⟩ with
          | none =>
            have hlog := log_delivered env e o { w with goroutines := rest } body hlogr0 hm
              hhost hdo
            obtain ⟨w', hd, hq, hl, _⟩ := ih { w with goroutines := rest, requests := w.requests ++
                [⟨o.Host, "POST", "application/json", [("billes-log-token", o.Token)], body⟩] } (by simpa using hlogr) (by simpa using hrest)
            exact ⟨w', by simp [drain, hg, hlog, hd], hq, hl, fun hh => absurd hh hhost⟩
          | some err =>
            have hlog := log_undelivered env e o { w with goroutines := rest } body err hlogr0
              hm hhost hdo
            obtain ⟨w', hd, hq, hl, _⟩ := ih (writeLocalLog env e true { w with
                goroutines := rest, requests := w.requests ++
                [⟨o.Host, "POST", "application/json", [("billes-log-token", o.Token)], body⟩] }) (by simpa [writeLocalLog] using hlogr)
              (by simpa [writeLocalLog] using hrest)
            exact ⟨w', by simp [drain, hg, hlog, hd], hq, hl, fun hh => absurd hh hhost⟩

theorem pendingRuns_le (es : List logEntry) : pendingRuns es ≤ 2 * es.length := by
  induction es with
  | nil => simp [pendingRuns]
  | cons e es ih =>
    have : logRuns e ≤ 2 := by unfold logRuns; split <;> decide
    simp [pendingRuns]
    omega

theorem Fatal_eq (env : Env) (o : Options) (tags : List String) (message : String)
    (data : Payload) (w : World) (hlogr : w.logr = some ⟨o⟩) :
    Fatal env tags message data w = .exited 1 (writeLocalLog env
      ⟨CRITICAL, o.System :: tags, message, variadic data⟩ true
      (log env ⟨CRITICAL, o.System :: tags, message, variadic data⟩ w).world) := by
  have h := (log_returns env ⟨CRITICAL, o.System :: tags, message, variadic data⟩ o w hlogr).1
  simp only [Fatal, newEntry, hlogr, List.singleton_append]
  rw [h]
  simp [Outcome.world]

/-- An asynchronous call on an idle, initialised process, followed by one run
of the scheduler: the goroutine it started runs `log` on the entry. -/
theorem perform_async (env : Env) (fuel : Nat) (c : Call) (o : Options) (tags : List String)
    (message : String) (data : Payload) (w : World)
    (hc : c ≠ .Fatal) (hlogr : w.logr = some ⟨o⟩) (hidle : w.goroutines = []) :
    c.perform env (fuel + 1) tags message data w =
      match log env (entryOf o c tags message data) w with
      | .returned _ w1 => drain env fuel w1
      | .panicked w1 => some (.panicked w1)
      | .exited code w1 => some (.exited code w1) := by
  obtain ⟨logr, out, err, reqs, gs⟩ := w
  simp only at hlogr hidle
  subst hlogr hidle
  cases c <;>
    first
    | exact absurd rfl hc
    | simp [Call.perform, Call.invoke, Critical, Debug, Error, Info, Warning, goLogNewEntry,
        newEntry, drain, goLog, entryOf, Call.severity]

/-- Without a host, on an idle process: no call issues a request, and an
encodable entry is written in the non-verbose format once the scheduler has
run. -/
theorem hostless_perform (env : Env) (fuel : Nat) (c : Call) (o : Options)
    (tags : List String) (message : String) (data : Payload) (w : World)
    (hlogr : w.logr = some ⟨o⟩) (hidle : w.goroutines = []) (hhost : o.Host = "") :
    (c.perform env (fuel + 2) tags message data w).map (fun out => out.world.requests) =
        some w.requests ∧
      (jsonMarshal (entryOf o c tags message data) ≠ none →
        (c ≠ .Fatal →
          c.perform env (fuel + 1) tags message data w = some (.returned ()
            { w with stdout := w.stdout ++
              [formatPlain (env.now w.stdout.length) (entryOf o c tags message data)] })) ∧
        (c = .Fatal →
          c.perform env (fuel + 1) tags message data w = some (.exited 1
            { w with stdout := w.stdout ++
              [formatPlain (env.now w.stdout.length) (entryOf o c tags message data),
                formatVerbose (env.now (w.stdout.length + 1))
                  (entryOf o c tags message data)] }))) := by
  constructor
  · by_cases hc : c = .Fatal
    · subst hc
      simp only [Call.perform, Call.invoke, Fatal_eq env o tags message data w hlogr]
      cases hm : jsonMarshal ⟨CRITICAL, o.System :: tags, message, variadic data⟩ with
      | none =>
        rw [log_unencodable env _ o w hlogr hm]
        simp [Outcome.world, writeLocalLog, goLog]
      | some body =>
        rw [log_hostless env _ o w body hlogr hm hhost]
        simp [Outcome.world, writeLocalLog]
    · have hinv : c.invoke env tags message data w =
          .returned () (goLog (entryOf o c tags message data) w) := by
        cases c <;>
          first
          | exact absurd rfl hc
          | simp [Call.invoke, Critical, Debug, Error, Info, Warning, goLogNewEntry, newEntry,
              hlogr, entryOf, Call.severity]
      have hruns : pendingRuns (goLog (entryOf o c tags message data) w).goroutines ≤
          fuel + 2 := by
        have h := pendingRuns_le (goLog (entryOf o c tags message data) w).goroutines
        simp [goLog, hidle] at h ⊢
        omega
      obtain ⟨w', hd, _, _, hr⟩ := drain_completes env o (fuel + 2)
        (goLog (entryOf o c tags message data) w) (by simpa [goLog] using hlogr) hruns
      simp only [Call.perform, hinv, hd]
      simp [Outcome.world, hr hhost, goLog]
  · intro hm
    cases hb : jsonMarshal (entryOf o c tags message data) with
    | none => exact absurd hb hm
    | some body =>
      constructor
      · intro hc
        rw [perform_async env fuel c o tags message data w hc hlogr hidle,
          log_hostless env _ o w body hlogr hb hhost]
        simp only []
        rw [drain_idle env fuel _ (by simpa [writeLocalLog] using hidle)]
        simp [writeLocalLog]
      · intro hc
        subst hc
        simp only [Call.perform, Call.invoke, Fatal_eq env o tags message data w hlogr]
        have hb' : jsonMarshal ⟨CRITICAL, o.System :: tags, message, variadic data⟩ =
            some body := hb
        rw [log_hostless env _ o w body hlogr hb' hhost]
        simp [Outcome.world, writeLocalLog, entryOf, Call.severity]

/-- C1: on an initialised logger `newEntry` builds an entry whose tags are
the system identifier followed by the caller's tags in their order; the tag
sequence is never empty. -/
theorem newEntry_tags (o : Options) (sev : severity) (ts : List String) (message : String)
    (data : Value) :
    newEntry (some ⟨o⟩) sev ts message data = some ⟨sev, [o.System] ++ ts, message, data⟩ ∧
      ([o.System] ++ ts).head? = some o.System ∧ ([o.System] ++ ts).drop 1 = ts ∧
      1 ≤ ([o.System] ++ ts).length := by
  simp [newEntry]

/-- C7: `Init(o1)` on a fresh process followed by `Init(o2)` leaves the
configuration `o1` in place; the second call starts one goroutine for an ERROR
entry tagged with the system identifier of `o1` and `logging`. -/
theorem Init_twice (o1 o2 : Options) (w : World) (hfresh : w.logr = none) :
    Init o1 w = .returned () { w with logr := some ⟨o1⟩ } ∧
      (Init o1 w).andThen (Init o2) = .returned ()
        { w with
          logr := some ⟨o1⟩,
          goroutines := w.goroutines ++
            [⟨ERROR, [o1.System, "logging"], alreadyInstantiated, .slice [.nil]⟩] } := by
  simp [Init, hfresh, Outcome.andThen, Error, goLogNewEntry, newEntry, goLog, variadic]

theorem Init_twice_witness :
    worldFresh.logr = none ∧
      (Init optsLocal worldFresh).andThen (Init optsRemote) = .returned ()
        { worldFresh with
          logr := some ⟨optsLocal⟩,
          goroutines := worldFresh.goroutines ++
            [⟨ERROR, [optsLocal.System, "logging"], alreadyInstantiated, .slice [.nil]⟩] } :=
  ⟨rfl, (Init_twice optsLocal optsRemote worldFresh rfl).2⟩

/-- C8: before `Init`, each of the six logging calls panics on the nil
`logr` (in `newEntry`) without returning, writing or starting a goroutine;
`log` itself, run on a nil `logr`, ends the process with status 1. -/
theorem call_before_Init_panics (env : Env) (fuel : Nat) (c : Call) (tags : List String)
    (message : String) (data : Payload) (e : logEntry) (w : World)
    (hfresh : w.logr = none) :
    c.invoke env tags message data w = .panicked w ∧
      c.perform env fuel tags message data w = some (.panicked w) ∧
      (∀ u w', c.invoke env tags message data w ≠ .returned u w') ∧
      log env e w = .exited 1
        { w with stderr := w.stderr ++ ["You need to instantiate the logger first"] } := by
  have h : c.invoke env tags message data w = .panicked w := by
    cases c <;>
      simp [Call.invoke, Critical, Debug, Error, Info, Warning, Fatal, goLogNewEntry, newEntry,
        hfresh]
  refine ⟨h, ?_, ?_, ?_⟩
  · simp [Call.perform, h]
  · intro u w'
    rw [h]
    simp
  · simp [log, hfresh]

theorem call_before_Init_panics_witness :
    worldFresh.logr = none ∧
      Call.invoke envOk .Info ["t"] "m" (.args []) worldFresh = .panicked worldFresh :=
  ⟨rfl, (call_before_Init_panics envOk 1 .Info ["t"] "m" (.args [])
    ⟨INFO, ["t"], "m", .nilSlice⟩ worldFresh rfl).1⟩

/-- C9, as stated, fails: `Info(["t"], "m", 5)` hands `log` an entry whose
data is the one-element slice holding 5, not 5, and the `"data"` field of the
body is the array `[5]`, not the number 5. -/
theorem payload_not_verbatim :
    Info ["t"] "m" (.args [.int 5]) worldLocal =
        .returned () (goLog ⟨INFO, ["system", "t"], "m", .slice [.int 5]⟩ worldLocal) ∧
      Value.slice [.int 5] ≠ Value.int 5 ∧
      (jsonMarshal ⟨INFO, ["system", "t"], "m", .slice [.int 5]⟩).bind Json.dataField =
        some (.arr [.num 5]) ∧
      Json.arr [.num 5] ≠ Json.num 5 := by
  refine ⟨rfl, by simp, ?_, by simp⟩
  simp [jsonMarshal, marshalValue, marshalValues, Json.dataField, List.find?]

/-- C9, amended: each of `Critical`, `Debug`, `Error`, `Info` and `Warning`
starts `log` on an entry with its own severity, the caller's message and, as
data, the slice bound to the variadic parameter: nil without payload
argument, the slice of the payload values when they are passed as arguments,
the caller's own slice when it is spread. The `"data"` field of the body is
the encoding of that slice: `null` for the nil slice, the array of the encoded
payload values otherwise (`[]` for a spread empty slice). -/
theorem call_entry_fields (o : Options) (tags : List String) (message : String)
    (data : Payload) (w : World) (hlogr : w.logr = some ⟨o⟩) :
    Critical tags message data w =
        .returned () (goLog ⟨CRITICAL, o.System :: tags, message, variadic data⟩ w) ∧
      Debug tags message data w =
        .returned () (goLog ⟨DEBUG, o.System :: tags, message, variadic data⟩ w) ∧
      Error tags message data w =
        .returned () (goLog ⟨ERROR, o.System :: tags, message, variadic data⟩ w) ∧
      Info tags message data w =
        .returned () (goLog ⟨INFO, o.System :: tags, message, variadic data⟩ w) ∧
      Warning tags message data w =
        .returned () (goLog ⟨WARNING, o.System :: tags, message, variadic data⟩ w) ∧
      variadic (.args []) = .nilSlice ∧
      (∀ d ds, variadic (.args (d :: ds)) = .slice (d :: ds)) ∧
      variadic (.spread none) = .nilSlice ∧
      (∀ xs, variadic (.spread (some xs)) = .slice xs) ∧
      (∀ sev body, jsonMarshal ⟨sev, o.System :: tags, message, variadic data⟩ = some body →
        body.dataField = marshalValue (variadic data)) ∧
      marshalValue .nilSlice = some .null ∧
      marshalValue (.slice []) = some (.arr []) ∧
      (∀ xs js, marshalValues xs = some js → marshalValue (.slice xs) = some (.arr js)) ∧
      (∀ d ds j js, marshalValue d = some j → marshalValues ds = some js →
        marshalValues (d :: ds) = some (j :: js)) := by
  refine ⟨?_, ?_, ?_, ?_, ?_, rfl, fun _ _ => rfl, rfl, fun _ => rfl, ?_,
    by simp [marshalValue], by simp [marshalValue, marshalValues], ?_, ?_⟩
  · simp [Critical, goLogNewEntry, newEntry, hlogr]
  · simp [Debug, goLogNewEntry, newEntry, hlogr]
  · simp [Error, goLogNewEntry, newEntry, hlogr]
  · simp [Info, goLogNewEntry, newEntry, hlogr]
  · simp [Warning, goLogNewEntry, newEntry, hlogr]
  · intro sev body hbody
    simp only [jsonMarshal] at hbody
    cases hd : marshalValue (variadic data) with
    | none => simp [hd] at hbody
    | some d =>
      simp only [hd, Option.some.injEq] at hbody
      subst hbody
      simp [Json.dataField, List.find?]
  · intro xs js hjs
    simp [marshalValue, hjs]
  · intro d ds j js hj hjs
    simp [marshalValues, hj, hjs]

theorem call_entry_fields_witness :
    worldLocal.logr = some ⟨optsLocal⟩ ∧
      Warning ["t"] "m" (.args [.str "a", .int 2]) worldLocal = .returned ()
        (goLog ⟨WARNING, optsLocal.System :: ["t"], "m", variadic (.args [.str "a", .int 2])⟩
          worldLocal) ∧
      (jsonMarshal ⟨WARNING, ["system", "t"], "m", variadic (.args [.str "a", .int 2])⟩).bind
        Json.dataField = some (.arr [.str "a", .num 2]) ∧
      (jsonMarshal ⟨WARNING, ["system", "t"], "m", variadic (.args [])⟩).bind
        Json.dataField = some .null ∧
      (jsonMarshal ⟨WARNING, ["system", "t"], "m", variadic (.spread (some []))⟩).bind
        Json.dataField = some (.arr []) :=
  ⟨rfl,
    (call_entry_fields optsLocal ["t"] "m" (.args [.str "a", .int 2]) worldLocal rfl).2.2.2.2.1,
    by simp [jsonMarshal, variadic, marshalValue, marshalValues, Json.dataField, List.find?],
    by simp [jsonMarshal, variadic, marshalValue, Json.dataField, List.find?],
    by simp [jsonMarshal, variadic, marshalValue, marshalValues, Json.dataField, List.find?]⟩

/-- C10: on an initialised logger `log` always returns; the entry it emits
when encoding fails can itself be encoded, so running `log` on it starts no
goroutine: an entry that fails starts exactly one goroutine, one that does
not starts none, and the pending goroutines all complete within two runs of
`log` each. -/
theorem encoding_failure_chain_ends (env : Env) (o : Options) (w : World)
    (hlogr : w.logr = some ⟨o⟩) :
    jsonMarshal ⟨ERROR, [o.System, "logging"], notEncodable, .slice [.str ""]⟩ =
        some (.obj [("severity", .str ERROR), ("tags", .arr [.str o.System, .str "logging"]),
          ("message", .str notEncodable), ("data", .arr [.str ""])]) ∧
      (∀ e, log env e w = .returned none (log env e w).world) ∧
      (∀ e, jsonMarshal e = none → (log env e w).world.goroutines = w.goroutines ++
        [⟨ERROR, [o.System, "logging"], notEncodable, .slice [.str ""]⟩]) ∧
      (∀ e, jsonMarshal e ≠ none → (log env e w).world.goroutines = w.goroutines) ∧
      (log env ⟨ERROR, [o.System, "logging"], notEncodable, .slice [.str ""]⟩ w).world.goroutines =
        w.goroutines ∧
      (∀ fuel, 2 * w.goroutines.length ≤ fuel →
        ∃ w', drain env fuel w = some (.returned () w') ∧ w'.goroutines = []) := by
  have hkeep : ∀ e, jsonMarshal e ≠ none → (log env e w).world.goroutines = w.goroutines := by
    intro e he
    cases hm : jsonMarshal e with
    | none => exact absurd hm he
    | some body =>
      by_cases hhost : o.Host = ""
      · rw [log_hostless env e o w body hlogr hm hhost]
        simp [Outcome.world, writeLocalLog]
      · cases hdo : env.Do w.requests.length
            ⟨o.Host, "POST", "application/json", [("billes-log-token", o.Token)], body⟩ with
        | none =>
          rw [log_delivered env e o w body hlogr hm hhost hdo]
          simp [Outcome.world]
        | some err =>
          rw [log_undelivered env e o w body err hlogr hm hhost hdo]
          simp [Outcome.world, writeLocalLog]
  have hsec := marshal_encodingFailureEntry o
  simp only [encodingFailureEntry] at hsec
  refine ⟨hsec, fun e => (log_returns env e o w hlogr).1, ?_, hkeep, ?_, ?_⟩
  · intro e he
    rw [log_unencodable env e o w hlogr he]
    simp [Outcome.world, goLog, writeLocalLog, encodingFailureEntry]
  · exact hkeep _ (by rw [hsec]; simp)
  · intro fuel hfuel
    obtain ⟨w', hd, hq, _, _⟩ := drain_completes env o fuel w hlogr
      (Nat.le_trans (pendingRuns_le w.goroutines) hfuel)
    exact ⟨w', hd, hq⟩

theorem encoding_failure_chain_ends_witness :
    worldRemote.logr = some ⟨optsRemote⟩ ∧
      (log envDown ⟨ERROR, [optsRemote.System, "logging"], notEncodable, .slice [.str ""]⟩
        worldRemote).world.goroutines = worldRemote.goroutines :=
  ⟨rfl, (encoding_failure_chain_ends envDown optsRemote worldRemote rfl).2.2.2.2.1⟩

/-- C2, as stated, fails, in two ways. Without a host, `Info(["t"], "m", ch)`
with a channel as payload writes the entry in the verbose format only: the
non-verbose line of the entry is not on the console. And a call only starts a
goroutine: after `Info(["t"], "m")` followed by `Fatal(["db"], "bye")` the
process has exited, the entry of `Info` is still pending and was never
written. No request is issued in either run. -/
theorem hostless_unencodable_not_plain :
    worldLocal.logr = some ⟨optsLocal⟩ ∧ optsLocal.Host = "" ∧
      (Call.perform envOk 2 .Info ["t"] "m" (.args [.chan 1]) worldLocal).map
          (fun out => out.world.stdout) =
        some ["2024-01-01 00:00:00 INFO - [system t] - m\n [0x1]\n",
          "2024-01-01 00:00:00 ERROR - [system logging] - Could not post to log due to \"data\" wasn't encodable - See local log\n"] ∧
      formatPlain "2024-01-01 00:00:00" ⟨INFO, ["system", "t"], "m", .slice [.chan 1]⟩ ∉
        ["2024-01-01 00:00:00 INFO - [system t] - m\n [0x1]\n",
          "2024-01-01 00:00:00 ERROR - [system logging] - Could not post to log due to \"data\" wasn't encodable - See local log\n"] ∧
      (Call.perform envOk 2 .Info ["t"] "m" (.args [.chan 1]) worldLocal).map
          (fun out => out.world.requests.length) = some 0 ∧
      (Info ["t"] "m" (.args []) worldLocal).andThen (Fatal envOk ["db"] "bye" (.args [])) =
        .exited 1
          { worldLocal with
            stdout := ["2024-01-01 00:00:00 CRITICAL - [system db] - bye\n",
              "2024-01-01 00:00:00 CRITICAL - [system db] - bye\n []\n"],
            goroutines := [⟨INFO, ["system", "t"], "m", .nilSlice⟩] } ∧
      formatPlain "2024-01-01 00:00:00" ⟨INFO, ["system", "t"], "m", .nilSlice⟩ ∉
        ["2024-01-01 00:00:00 CRITICAL - [system db] - bye\n",
          "2024-01-01 00:00:00 CRITICAL - [system db] - bye\n []\n"] := by
  refine ⟨rfl, rfl, by decide, by decide, by decide, ?_, by decide⟩
  simp [Info, goLogNewEntry, newEntry, worldLocal, optsLocal, variadic, goLog, Outcome.andThen,
    Fatal, log, jsonMarshal, marshalValue, CRITICAL, INFO, writeLocalLog, envOk]
  decide

/-- C2, amended: without a host, the five asynchronous calls only start a
goroutine for `log` on their entry, and `Fatal` runs `log` itself; whenever
`log` runs on the entry it issues no request, whatever the payload, and when
the entry can be encoded it writes the line `<time> <severity> - <tags> -
<message>` (non-verbose format). `Fatal` then writes the entry in the verbose
format and exits with status 1. On an idle process the goroutine of an
asynchronous call runs as soon as the scheduler does. -/
theorem hostless_call_plain (env : Env) (fuel : Nat) (c : Call) (o : Options)
    (tags : List String) (message : String) (data : Payload) (w : World)
    (hlogr : w.logr = some ⟨o⟩) (hhost : o.Host = "") :
    (c ≠ .Fatal →
        c.invoke env tags message data w = .returned ()
          { w with goroutines := w.goroutines ++
            [⟨c.severity, o.System :: tags, message, variadic data⟩] }) ∧
      (∀ w2 : World, w2.logr = some ⟨o⟩ →
        (log env ⟨c.severity, o.System :: tags, message, variadic data⟩ w2).world.requests =
          w2.requests) ∧
      (∀ w2 : World, w2.logr = some ⟨o⟩ →
        jsonMarshal ⟨c.severity, o.System :: tags, message, variadic data⟩ ≠ none →
        log env ⟨c.severity, o.System :: tags, message, variadic data⟩ w2 = .returned none
          { w2 with stdout := w2.stdout ++
            [env.now w2.stdout.length ++ " " ++ c.severity ++ " - " ++
                ("[" ++ " ".intercalate (o.System :: tags) ++ "]") ++ " - " ++ message ++ "\n"] }) ∧
      (c = .Fatal →
        (c.invoke env tags message data w).world.requests = w.requests ∧
        (jsonMarshal ⟨c.severity, o.System :: tags, message, variadic data⟩ ≠ none →
          c.invoke env tags message data w = .exited 1
            { w with stdout := w.stdout ++
              [env.now w.stdout.length ++ " " ++ c.severity ++ " - " ++
                ("[" ++ " ".intercalate (o.System :: tags) ++ "]") ++ " - " ++ message ++ "\n",
                env.now (w.stdout.length + 1) ++ " " ++ c.severity ++ " - " ++
                  ("[" ++ " ".intercalate (o.System :: tags) ++ "]") ++ " - " ++ message ++ "\n " ++
                  fmtValue (variadic data) ++ "\n"] })) ∧
      (w.goroutines = [] →
        (c.perform env (fuel + 2) tags message data w).map (fun out => out.world.requests) =
          some w.requests ∧
        (jsonMarshal ⟨c.severity, o.System :: tags, message, variadic data⟩ ≠ none →
          c ≠ .Fatal →
          c.perform env (fuel + 1) tags message data w = some (.returned ()
            { w with stdout := w.stdout ++
              [env.now w.stdout.length ++ " " ++ c.severity ++ " - " ++
                ("[" ++ " ".intercalate (o.System :: tags) ++ "]") ++ " - " ++ message ++ "\n"] }))) := by
  have hreq : ∀ (e : logEntry) (w2 : World), w2.logr = some ⟨o⟩ →
      (log env e w2).world.requests = w2.requests := by
    intro e w2 h2
    cases hm : jsonMarshal e with
    | none =>
      rw [log_unencodable env e o w2 h2 hm]
      rfl
    | some body =>
      rw [log_hostless env e o w2 body h2 hm hhost]
      simp [Outcome.world, writeLocalLog]
  have hplain : ∀ (e : logEntry) (w2 : World), w2.logr = some ⟨o⟩ → jsonMarshal e ≠ none →
      log env e w2 = .returned none (writeLocalLog env e false w2) := by
    intro e w2 h2 hm
    cases hb : jsonMarshal e with
    | none => exact absurd hb hm
    | some body => exact log_hostless env e o w2 body h2 hb hhost
  refine ⟨?_, fun w2 h2 => hreq _ w2 h2, fun w2 h2 hm => hplain _ w2 h2 hm, ?_, ?_⟩
  · intro hc
    cases c <;>
      first
      | exact absurd rfl hc
      | simp [Call.invoke, Critical, Debug, Error, Info, Warning, goLogNewEntry, newEntry,
          hlogr, Call.severity, goLog]
  · intro hc
    subst hc
    have hF := Fatal_eq env o tags message data w hlogr
    constructor
    · simp only [Call.invoke, hF, Outcome.world]
      have h := hreq ⟨CRITICAL, o.System :: tags, message, variadic data⟩ w hlogr
      simpa [writeLocalLog] using h
    · intro hm
      have hm' : jsonMarshal ⟨CRITICAL, o.System :: tags, message, variadic data⟩ ≠ none := hm
      simp only [Call.invoke, hF, hplain _ w hlogr hm', Outcome.world]
      simp [writeLocalLog, formatPlain, formatVerbose, fmtStrings, Call.severity]
  · intro hidle
    have h := hostless_perform env fuel c o tags message data w hlogr hidle hhost
    exact ⟨h.1, fun hm hc => (h.2 hm).1 hc⟩

theorem hostless_call_plain_witness :
    worldLocal.logr = some ⟨optsLocal⟩ ∧ optsLocal.Host = "" ∧
      Call.invoke envOk .Debug ["t"] "m" (.args [.str "x"]) worldLocal = .returned ()
        { worldLocal with goroutines := worldLocal.goroutines ++
          [⟨Call.severity .Debug, optsLocal.System :: ["t"], "m", variadic (.args [.str "x"])⟩] } ∧
      (log envOk ⟨DEBUG, ["system", "t"], "m", .slice [.str "x"]⟩ worldLocal).world.stdout =
        ["2024-01-01 00:00:00 DEBUG - [system t] - m\n"] ∧
      (Call.perform envOk 1 .Debug ["t"] "m" (.args [.str "x"]) worldLocal).map
        (fun out => out.world.stdout) = some ["2024-01-01 00:00:00 DEBUG - [system t] - m\n"] :=
  ⟨rfl, rfl,
    (hostless_call_plain envOk 0 .Debug optsLocal ["t"] "m" (.args [.str "x"]) worldLocal
      rfl rfl).1 (by decide),
    by decide, by decide⟩

end Logger
